import Mathlib

/-!
Verification of the serial packet-framing state machine in
`src/firmware_v2/SerialReader.cpp` (class `SerialReader`).

The decoder consumes one byte per `readUpdate` call and walks through the
states `WAITFORPACKET → HEADER1 → HEADER2 → PAYLOAD → CHKSUM →
WAITFORHANDLING`, resynchronizing to `WAITFORPACKET` on any framing error.
The byte source (`bt1`, a `SoftwareSerial`) is modelled as a list of pending
bytes; reading a byte removes the head of the list.

`SerialReader.h` is not part of the repository snapshot, so the constants and
member types it declares are modelled from the spec (see the doc comments on
`INCOMING_HEADER_BYTE`, `initReader`, and the `chksum` field).
-/

/-- Decoder states, the `enum` switched on by `SerialReader::readUpdate`. -/
inductive RState where
  | WAITFORPACKET
  | HEADER1
  | HEADER2
  | PAYLOAD
  | CHKSUM
  | WAITFORHANDLING
deriving DecidableEq, Repr

/-- Modelled from the spec: `INCOMING_HEADER_BYTE` is declared in the missing
`SerialReader.h`; the spec fixes the sync byte to 0xAA in its concrete
scenario. -/
def INCOMING_HEADER_BYTE : Nat := 0xAA

/-- The mutable members of class `SerialReader`.  Bytes are naturals below
256; `currPlSz` (`_currPlSz`) is an `Int` because the sentinel value -1 is
stored into it by `payloadHandled`.  The `chksum` field (`_chksum`) is kept
reduced modulo 256: its 8-bit unsigned type is declared in the missing
`SerialReader.h`, modelled from the spec ("an 8-bit accumulator, unsigned,
wrapping on overflow").  `maxPayloadSize` is likewise a constant of the
missing header and is passed as an explicit parameter `mps` below. -/
structure SerialReader where
  state : RState
  currByte : Nat
  currPlSz : Int
  plCntr : Nat
  chksum : Nat
  payload : List Nat
deriving DecidableEq, Repr

/-- Modelled from the spec: the constructor `SerialReader::SerialReader` sets
only `_state = WAITFORPACKET`; the remaining members are given the spec's
reset values (invalid sentinel -1 for the expected payload length, zeroed
counter, checksum and buffer).  The buffer has the capacity
`mps = MAX_PAYLOAD_SIZE`. -/
def initReader (mps : Nat) : SerialReader :=
  { state := RState.WAITFORPACKET
    currByte := 0
    currPlSz := -1
    plCntr := 0
    chksum := 0
    payload := List.replicate mps 0 }

/-- One iteration of the `switch (_state)` in `SerialReader::readUpdate`,
after `_currByte = bt1.read()` has stored the incoming byte `b`.  `mps` is
the `maxPayloadSize` constant from the missing header. -/
def step (mps : Nat) (d : SerialReader) (b : Nat) : SerialReader :=
  match d.state with
  | RState.WAITFORPACKET =>
      if b = INCOMING_HEADER_BYTE then
        { d with currByte := b, state := RState.HEADER1 }
      else
        { d with currByte := b }
  | RState.HEADER1 =>
      if b = INCOMING_HEADER_BYTE then
        { d with currByte := b, state := RState.HEADER2 }
      else
        { d with currByte := b, state := RState.WAITFORPACKET }
  | RState.HEADER2 =>
      if b = 0 ∨ mps < b then
        { d with currByte := b, state := RState.WAITFORPACKET }
      else
        { d with currByte := b
                 currPlSz := (b : Int) - 1
                 plCntr := 0
                 state := RState.PAYLOAD
                 chksum := (INCOMING_HEADER_BYTE + INCOMING_HEADER_BYTE + b) % 256 }
  | RState.PAYLOAD =>
      if ((d.plCntr + 1 : Nat) : Int) = d.currPlSz then
        { d with currByte := b
                 payload := d.payload.set d.plCntr b
                 plCntr := d.plCntr + 1
                 chksum := (d.chksum + b) % 256
                 state := RState.CHKSUM }
      else
        { d with currByte := b
                 payload := d.payload.set d.plCntr b
                 plCntr := d.plCntr + 1
                 chksum := (d.chksum + b) % 256 }
  | RState.CHKSUM =>
      if d.chksum = b then
        { d with currByte := b, state := RState.WAITFORHANDLING }
      else
        { d with currByte := b, state := RState.WAITFORPACKET }
  | RState.WAITFORHANDLING =>
      { d with currByte := b }

/-- `SerialReader::readUpdate` on a pending input stream.  When at least one
byte is available the loop body runs once: it reads the byte, advances the
state machine, and returns `_currPlSz` if the new state is `WAITFORHANDLING`
and -1 otherwise.  When no byte is available the `while` body never runs and
control falls off the end of the non-void function: no return value is
produced, modelled as `none`. -/
def readUpdate (mps : Nat) (d : SerialReader) (input : List Nat) :
    SerialReader × List Nat × Option Int :=
  match input with
  | [] => (d, [], none)
  | b :: rest =>
      let d2 := step mps d b
      if d2.state = RState.WAITFORHANDLING then (d2, rest, some d2.currPlSz)
      else (d2, rest, some (-1))

/-- `SerialReader::payloadHandled`. -/
def payloadHandled (d : SerialReader) : SerialReader :=
  { d with currPlSz := -1, state := RState.WAITFORPACKET }

/-- Feeding a list of bytes one at a time (repeated polls, each with a byte
available). -/
def feedAll (mps : Nat) (d : SerialReader) (l : List Nat) : SerialReader :=
  l.foldl (step mps) d

/-- The on-wire encoding of a packet with raw length byte `lenByte` and
payload `pl`: two sync bytes, the length byte, the payload, and the modulo-256
checksum of everything before it. -/
def packetBytes (lenByte : Nat) (pl : List Nat) : List Nat :=
  [INCOMING_HEADER_BYTE, INCOMING_HEADER_BYTE, lenByte] ++ pl ++
    [(INCOMING_HEADER_BYTE + INCOMING_HEADER_BYTE + lenByte + pl.sum) % 256]

/-- Writing the bytes of `l` into `buf` at consecutive indices starting at
`i`, exactly as the PAYLOAD state does over successive calls. -/
def setList (buf : List Nat) (i : Nat) : List Nat → List Nat
  | [] => buf
  | b :: l => setList (buf.set i b) (i + 1) l

/-- The decoder configuration right after the HEADER2 case accepts the raw
length byte `b`: expected payload size `b - 1`, fill counter 0, checksum
seeded from the two sync bytes and `b`. -/
def afterLen (b : Nat) (d : SerialReader) : SerialReader :=
  { d with currByte := b
           currPlSz := (b : Int) - 1
           plCntr := 0
           state := RState.PAYLOAD
           chksum := (INCOMING_HEADER_BYTE + INCOMING_HEADER_BYTE + b) % 256 }

theorem feedAll_nil (mps : Nat) (d : SerialReader) : feedAll mps d [] = d := rfl

theorem feedAll_cons (mps : Nat) (d : SerialReader) (b : Nat) (l : List Nat) :
    feedAll mps d (b :: l) = feedAll mps (step mps d b) l := rfl

theorem feedAll_append (mps : Nat) (d : SerialReader) (l1 l2 : List Nat) :
    feedAll mps d (l1 ++ l2) = feedAll mps (feedAll mps d l1) l2 :=
  List.foldl_append _ _ _ _

theorem step_waitforpacket (mps b : Nat) (d : SerialReader)
    (h : d.state = RState.WAITFORPACKET) :
    step mps d b =
      if b = INCOMING_HEADER_BYTE then
        { d with currByte := b, state := RState.HEADER1 }
      else
        { d with currByte := b } := by
  obtain ⟨st, cb, ps, pc, ck, pay⟩ := d
  cases h
  rfl

theorem step_header1 (mps b : Nat) (d : SerialReader)
    (h : d.state = RState.HEADER1) :
    step mps d b =
      if b = INCOMING_HEADER_BYTE then
        { d with currByte := b, state := RState.HEADER2 }
      else
        { d with currByte := b, state := RState.WAITFORPACKET } := by
  obtain ⟨st, cb, ps, pc, ck, pay⟩ := d
  cases h
  rfl

theorem step_header2 (mps b : Nat) (d : SerialReader)
    (h : d.state = RState.HEADER2) :
    step mps d b =
      if b = 0 ∨ mps < b then
        { d with currByte := b, state := RState.WAITFORPACKET }
      else
        { d with currByte := b
                 currPlSz := (b : Int) - 1
                 plCntr := 0
                 state := RState.PAYLOAD
                 chksum := (INCOMING_HEADER_BYTE + INCOMING_HEADER_BYTE + b) % 256 } := by
  obtain ⟨st, cb, ps, pc, ck, pay⟩ := d
  cases h
  rfl

theorem step_payload (mps b : Nat) (d : SerialReader)
    (h : d.state = RState.PAYLOAD) :
    step mps d b =
      if ((d.plCntr + 1 : Nat) : Int) = d.currPlSz then
        { d with currByte := b
                 payload := d.payload.set d.plCntr b
                 plCntr := d.plCntr + 1
                 chksum := (d.chksum + b) % 256
                 state := RState.CHKSUM }
      else
        { d with currByte := b
                 payload := d.payload.set d.plCntr b
                 plCntr := d.plCntr + 1
                 chksum := (d.chksum + b) % 256 } := by
  obtain ⟨st, cb, ps, pc, ck, pay⟩ := d
  cases h
  rfl

theorem step_chksum (mps b : Nat) (d : SerialReader)
    (h : d.state = RState.CHKSUM) :
    step mps d b =
      if d.chksum = b then
        { d with currByte := b, state := RState.WAITFORHANDLING }
      else
        { d with currByte := b, state := RState.WAITFORPACKET } := by
  obtain ⟨st, cb, ps, pc, ck, pay⟩ := d
  cases h
  rfl

theorem step_waitforhandling (mps b : Nat) (d : SerialReader)
    (h : d.state = RState.WAITFORHANDLING) :
    step mps d b = { d with currByte := b } := by
  obtain ⟨st, cb, ps, pc, ck, pay⟩ := d
  cases h
  rfl

theorem setList_length (l : List Nat) : ∀ (buf : List Nat) (i : Nat),
    (setList buf i l).length = buf.length := by
  induction l with
  | nil => intro buf i; rfl
  | cons b t ih =>
      intro buf i
      simp only [setList, ih, List.length_set]

theorem setList_eq (l : List Nat) : ∀ (buf : List Nat) (i : Nat),
    i + l.length ≤ buf.length →
    setList buf i l = buf.take i ++ l ++ buf.drop (i + l.length) := by
  induction l with
  | nil =>
      intro buf i _
      simp [setList]
  | cons b t ih =>
      intro buf i h
      have hlen : i < buf.length := by
        simp only [List.length_cons] at h
        omega
      have hset : buf.set i b = buf.take i ++ b :: buf.drop (i + 1) := by
        rw [List.set_eq_take_append_cons_drop, if_pos hlen]
      have h2 : i + 1 + t.length ≤ (buf.set i b).length := by
        simp only [List.length_set, List.length_cons] at h ⊢
        omega
      rw [setList, ih (buf.set i b) (i + 1) h2]
      have htake : (buf.set i b).take (i + 1) = buf.take i ++ [b] := by
        rw [hset]
        have hli : (buf.take i).length = i := by
          rw [List.length_take]
          omega
        have : i + 1 = (buf.take i).length + 1 := by omega
        rw [this, List.take_append_eq_append_take, List.take_of_length_le (by omega)]
        simp
      have hdrop : (buf.set i b).drop (i + 1 + t.length) = buf.drop (i + 1 + t.length) := by
        exact List.drop_set_of_lt b buf (by omega)
      rw [htake, hdrop]
      simp only [List.length_cons]
      have : i + (t.length + 1) = i + 1 + t.length := by omega
      rw [this]
      simp [List.append_assoc]

theorem setList_take (pl buf : List Nat) (h : pl.length ≤ buf.length) :
    (setList buf 0 pl).take pl.length = pl := by
  rw [setList_eq pl buf 0 (by omega)]
  simp only [List.take_zero, List.nil_append]
  rw [List.take_append_eq_append_take, List.take_of_length_le (le_refl _)]
  simp

theorem setList_idem (pl buf : List Nat) (i : Nat) (h : i + pl.length ≤ buf.length) :
    setList (setList buf i pl) i pl = setList buf i pl := by
  have hlen : (setList buf i pl).length = buf.length := setList_length pl buf i
  rw [setList_eq pl (setList buf i pl) i (by omega), setList_eq pl buf i h]
  have hti : (buf.take i).length = i := by
    rw [List.length_take]; omega
  have htake : (buf.take i ++ pl ++ buf.drop (i + pl.length)).take i = buf.take i := by
    rw [List.append_assoc, List.take_append_eq_append_take]
    rw [List.take_of_length_le (by omega)]
    simp [hti]
  have hdrop : (buf.take i ++ pl ++ buf.drop (i + pl.length)).drop (i + pl.length) =
      buf.drop (i + pl.length) := by
    have hlp : (buf.take i ++ pl).length = i + pl.length := by
      rw [List.length_append, hti]
    rw [List.append_assoc, ← List.append_assoc]
    have := List.drop_left (buf.take i ++ pl) (buf.drop (i + pl.length))
    rw [hlp] at this
    exact this
  rw [htake, hdrop]

theorem payload_run (mps : Nat) (l : List Nat) : ∀ (d : SerialReader),
    d.state = RState.PAYLOAD →
    d.currPlSz = ((d.plCntr + l.length : Nat) : Int) →
    l ≠ [] →
    (feedAll mps d l).state = RState.CHKSUM ∧
    (feedAll mps d l).plCntr = d.plCntr + l.length ∧
    (feedAll mps d l).chksum = (d.chksum + l.sum) % 256 ∧
    (feedAll mps d l).currPlSz = d.currPlSz ∧
    (feedAll mps d l).payload = setList d.payload d.plCntr l := by
  induction l with
  | nil =>
      intro d _ _ hne
      exact absurd rfl hne
  | cons b t ih =>
      intro d hst hsz _
      rw [feedAll_cons]
      by_cases ht : t = []
      · subst ht
        have hcond : ((d.plCntr + 1 : Nat) : Int) = d.currPlSz := by
          rw [hsz]
          simp
        rw [step_payload mps b d hst, if_pos hcond, feedAll_nil]
        refine ⟨rfl, by simp, by simp, rfl, rfl⟩
      · have htlen : 1 ≤ t.length := by
          cases t with
          | nil => exact absurd rfl ht
          | cons x xs => simp
        have hcond : ¬ ((d.plCntr + 1 : Nat) : Int) = d.currPlSz := by
          rw [hsz]
          simp only [List.length_cons]
          push_cast
          omega
        rw [step_payload mps b d hst, if_neg hcond]
        have h2 := ih
          { d with currByte := b
                   payload := d.payload.set d.plCntr b
                   plCntr := d.plCntr + 1
                   chksum := (d.chksum + b) % 256 }
          hst
          (by
            simp only [hsz, List.length_cons]
            push_cast
            ring)
          ht
        refine ⟨h2.1, ?_, ?_, h2.2.2.2.1, ?_⟩
        · rw [h2.2.1]
          simp only [List.length_cons]
          omega
        · rw [h2.2.2.1]
          simp only [List.sum_cons, Nat.mod_add_mod]
          ring_nf
        · rw [h2.2.2.2.2]
          rfl

theorem step_sync1 (mps : Nat) (d : SerialReader)
    (h : d.state = RState.WAITFORPACKET) :
    step mps d INCOMING_HEADER_BYTE =
      { d with currByte := INCOMING_HEADER_BYTE, state := RState.HEADER1 } := by
  rw [step_waitforpacket mps INCOMING_HEADER_BYTE d h, if_pos rfl]

theorem step_sync2 (mps : Nat) (d : SerialReader)
    (h : d.state = RState.HEADER1) :
    step mps d INCOMING_HEADER_BYTE =
      { d with currByte := INCOMING_HEADER_BYTE, state := RState.HEADER2 } := by
  rw [step_header1 mps INCOMING_HEADER_BYTE d h, if_pos rfl]

theorem step_len_ok (mps b : Nat) (d : SerialReader)
    (h : d.state = RState.HEADER2) (h1 : b ≠ 0) (h2 : b ≤ mps) :
    step mps d b =
      { d with currByte := b
               currPlSz := (b : Int) - 1
               plCntr := 0
               state := RState.PAYLOAD
               chksum := (INCOMING_HEADER_BYTE + INCOMING_HEADER_BYTE + b) % 256 } := by
  rw [step_header2 mps b d h, if_neg (by omega)]

theorem step_chk_ok (mps b : Nat) (d : SerialReader)
    (h : d.state = RState.CHKSUM) (hc : d.chksum = b) :
    step mps d b = { d with currByte := b, state := RState.WAITFORHANDLING } := by
  rw [step_chksum mps b d h, if_pos hc]

theorem packet_run (mps B : Nat) (pl : List Nat) (d : SerialReader)
    (hst : d.state = RState.WAITFORPACKET)
    (hB1 : 2 ≤ B) (hB2 : B ≤ mps) (hlen : pl.length = B - 1) :
    (feedAll mps d (packetBytes B pl)).state = RState.WAITFORHANDLING ∧
    (feedAll mps d (packetBytes B pl)).currPlSz = (B : Int) - 1 ∧
    (feedAll mps d (packetBytes B pl)).plCntr = B - 1 ∧
    (feedAll mps d (packetBytes B pl)).payload = setList d.payload 0 pl := by
  have hne : pl ≠ [] := by
    intro hnil
    rw [hnil] at hlen
    simp at hlen
    omega
  have hpkt : packetBytes B pl =
      INCOMING_HEADER_BYTE :: INCOMING_HEADER_BYTE :: B ::
        (pl ++ [(INCOMING_HEADER_BYTE + INCOMING_HEADER_BYTE + B + pl.sum) % 256]) := by
    simp [packetBytes]
  rw [hpkt, feedAll_cons, feedAll_cons, feedAll_cons]
  rw [step_sync1 mps d hst]
  rw [step_sync2 mps _ rfl]
  rw [step_len_ok mps B _ rfl (by omega) hB2]
  rw [feedAll_append]
  have hrun := payload_run mps pl
    { d with currByte := B
             currPlSz := (B : Int) - 1
             plCntr := 0
             state := RState.PAYLOAD
             chksum := (INCOMING_HEADER_BYTE + INCOMING_HEADER_BYTE + B) % 256 }
    rfl
    (by
      show (B : Int) - 1 = ((0 + pl.length : Nat) : Int)
      rw [hlen]
      omega)
    hne
  rw [feedAll_cons, feedAll_nil]
  have hchk : (feedAll mps
      { d with currByte := B
               currPlSz := (B : Int) - 1
               plCntr := 0
               state := RState.PAYLOAD
               chksum := (INCOMING_HEADER_BYTE + INCOMING_HEADER_BYTE + B) % 256 } pl).chksum =
      (INCOMING_HEADER_BYTE + INCOMING_HEADER_BYTE + B + pl.sum) % 256 := by
    rw [hrun.2.2.1]
    show ((INCOMING_HEADER_BYTE + INCOMING_HEADER_BYTE + B) % 256 + pl.sum) % 256 = _
    rw [Nat.mod_add_mod]
  rw [step_chk_ok mps _ _ hrun.1 hchk]
  refine ⟨rfl, ?_, ?_, ?_⟩
  · show (feedAll mps _ pl).currPlSz = (B : Int) - 1
    rw [hrun.2.2.2.1]
  · show (feedAll mps _ pl).plCntr = B - 1
    rw [hrun.2.1, hlen]
    show 0 + (B - 1) = B - 1
    omega
  · show (feedAll mps _ pl).payload = setList d.payload 0 pl
    rw [hrun.2.2.2.2]

theorem payload_mid_run (mps : Nat) (l : List Nat) : ∀ (j : Nat) (d : SerialReader),
    d.state = RState.PAYLOAD →
    d.currPlSz = ((d.plCntr + l.length : Nat) : Int) →
    j < l.length →
    (feedAll mps d (l.take j)).state = RState.PAYLOAD ∧
    (feedAll mps d (l.take j)).plCntr = d.plCntr + j ∧
    (feedAll mps d (l.take j)).currPlSz = d.currPlSz := by
  induction l with
  | nil =>
      intro j d _ _ hj
      simp at hj
  | cons b t ih =>
      intro j d hst hsz hj
      cases j with
      | zero =>
          rw [List.take_zero, feedAll_nil]
          exact ⟨hst, by omega, rfl⟩
      | succ k =>
          have hk : k < t.length := by
            simp only [List.length_cons] at hj
            omega
          rw [List.take_succ_cons, feedAll_cons]
          have hcond : ¬ ((d.plCntr + 1 : Nat) : Int) = d.currPlSz := by
            rw [hsz]
            simp only [List.length_cons]
            push_cast
            omega
          rw [step_payload mps b d hst, if_neg hcond]
          have h2 := ih k
            { d with currByte := b
                     payload := d.payload.set d.plCntr b
                     plCntr := d.plCntr + 1
                     chksum := (d.chksum + b) % 256 }
            hst
            (by
              simp only [hsz, List.length_cons]
              push_cast
              ring)
            hk
          refine ⟨h2.1, ?_, h2.2.2⟩
          rw [h2.2.1]
          show d.plCntr + 1 + k = d.plCntr + (k + 1)
          omega

/-- C1 counterexample: the claim's concrete scenario is false on the code.
The checksum of `[0xAA, 0xAA, 0x03, 0x10, 0x20]` modulo 256 is 0x87, not
0xF9, so feeding the 6 bytes `[0xAA, 0xAA, 0x03, 0x10, 0x20, 0xF9]` ends in
a checksum mismatch and the decoder resynchronizes to `WAITFORPACKET`
instead of reaching `WAITFORHANDLING` (PayloadReady). -/
theorem C1_concrete_scenario_fails :
    (feedAll 32 (initReader 32) [0xAA, 0xAA, 0x03, 0x10, 0x20, 0xF9]).state =
      RState.WAITFORPACKET ∧
    ¬ (feedAll 32 (initReader 32) [0xAA, 0xAA, 0x03, 0x10, 0x20, 0xF9]).state =
      RState.WAITFORHANDLING := by
  decide

/-- C1 (amended): for every valid packet — two sync bytes, a raw length byte
`B` with `2 ≤ B ≤ maxPayloadSize` (so the payload carries `B - 1 ≥ 1`
bytes), and a final byte equal to the modulo-256 sum of all preceding
bytes — delivered one byte at a time to a decoder in `WAITFORPACKET`, the
decoder reaches `WAITFORHANDLING` (PayloadReady) with expected payload
length `B - 1` and the payload buffer's first `B - 1` bytes equal to the
packet's payload.  The concrete packet must carry checksum 0x87, not the
claim's 0xF9. -/
theorem C1_valid_packet_ready (mps B : Nat) (pl : List Nat) (d : SerialReader)
    (hst : d.state = RState.WAITFORPACKET)
    (hbuf : d.payload.length = mps)
    (hB1 : 2 ≤ B) (hB2 : B ≤ mps) (hlen : pl.length = B - 1) :
    (feedAll mps d (packetBytes B pl)).state = RState.WAITFORHANDLING ∧
    (feedAll mps d (packetBytes B pl)).currPlSz = (B : Int) - 1 ∧
    (feedAll mps d (packetBytes B pl)).payload.take (B - 1) = pl := by
  have h := packet_run mps B pl d hst hB1 hB2 hlen
  refine ⟨h.1, h.2.1, ?_⟩
  rw [h.2.2.2, ← hlen]
  exact setList_take pl d.payload (by rw [hbuf, hlen]; omega)

/-- C1 witness: the corrected concrete scenario.  `packetBytes 3 [0x10, 0x20]`
is `[0xAA, 0xAA, 0x03, 0x10, 0x20, 0x87]`; feeding it yields PayloadReady
with payload `[0x10, 0x20]`. -/
theorem C1_valid_packet_witness :
    (feedAll 32 (initReader 32) (packetBytes 3 [0x10, 0x20])).state =
      RState.WAITFORHANDLING ∧
    (feedAll 32 (initReader 32) (packetBytes 3 [0x10, 0x20])).currPlSz = (3 : Int) - 1 ∧
    (feedAll 32 (initReader 32) (packetBytes 3 [0x10, 0x20])).payload.take (3 - 1) =
      [0x10, 0x20] :=
  C1_valid_packet_ready 32 3 [0x10, 0x20] (initReader 32) rfl (by simp [initReader])
    (by omega) (by omega) rfl

/-- C2 (code bug evidence): the claimed invariant `Fill Count ≤ Expected
Payload Length ≤ MAX_PAYLOAD_SIZE` is violated by reachable states.  The
HEADER2 case rejects only a raw length byte of 0 or above `maxPayloadSize`,
so the raw length byte 1 is accepted with expected payload length 0; after
that `_plCntr == _currPlSz` can never hold (the counter has already passed
0), so every further byte keeps being written at index `_plCntr++`, past the
expected length and past the buffer's capacity.  With `maxPayloadSize = 32`,
after `[0xAA, 0xAA, 0x01]` and 34 more bytes the decoder is still in PAYLOAD
with Fill Count 34 > Expected Payload Length 0 and write index beyond the
32-byte buffer. -/
theorem C2_invariant_violated :
    (feedAll 32 (initReader 32) ([0xAA, 0xAA, 0x01] ++ List.replicate 34 0)).state =
      RState.PAYLOAD ∧
    (feedAll 32 (initReader 32) ([0xAA, 0xAA, 0x01] ++ List.replicate 34 0)).currPlSz = 0 ∧
    (feedAll 32 (initReader 32) ([0xAA, 0xAA, 0x01] ++ List.replicate 34 0)).plCntr = 34 ∧
    ¬ ((feedAll 32 (initReader 32)
        ([0xAA, 0xAA, 0x01] ++ List.replicate 34 0)).plCntr : Int) ≤
      (feedAll 32 (initReader 32) ([0xAA, 0xAA, 0x01] ++ List.replicate 34 0)).currPlSz := by
  decide

/-- C3 counterexample: the claim says a raw length byte of 1 is rejected with
resynchronization; in the code only 0 and values above `maxPayloadSize` are
rejected, so after `[0xAA, 0xAA, 0x01]` the decoder is in PAYLOAD, not back
in `WAITFORPACKET`. -/
theorem C3_len_one_accepted :
    (feedAll 32 (initReader 32) [0xAA, 0xAA, 0x01]).state = RState.PAYLOAD ∧
    ¬ (feedAll 32 (initReader 32) [0xAA, 0xAA, 0x01]).state = RState.WAITFORPACKET := by
  decide

/-- C3 (amended): at the length-byte step, the raw length byte 1 is accepted
(with expected payload length 0), the maximum accepted raw length byte is
`maxPayloadSize` itself — a packet with that length byte and a
`maxPayloadSize - 1`-byte payload is accumulated to PayloadReady — and the
raw length bytes `maxPayloadSize + 1` and `maxPayloadSize + 2` are rejected
with resynchronization. -/
theorem C3_length_boundaries (mps : Nat) (d : SerialReader)
    (hst : d.state = RState.HEADER2) (hmps : 2 ≤ mps) :
    (step mps d 1).state = RState.PAYLOAD ∧
    (step mps d 1).currPlSz = 0 ∧
    (step mps d mps).state = RState.PAYLOAD ∧
    (step mps d mps).currPlSz = (mps : Int) - 1 ∧
    (step mps d (mps + 1)).state = RState.WAITFORPACKET ∧
    (step mps d (mps + 2)).state = RState.WAITFORPACKET ∧
    (∀ (pl : List Nat) (d0 : SerialReader), pl.length = mps - 1 →
      d0.state = RState.WAITFORPACKET →
      (feedAll mps d0 (packetBytes mps pl)).state = RState.WAITFORHANDLING) := by
  refine ⟨?_, ?_, ?_, ?_, ?_, ?_, ?_⟩
  · rw [step_len_ok mps 1 d hst (by omega) (by omega)]
  · rw [step_len_ok mps 1 d hst (by omega) (by omega)]
    show ((1 : Nat) : Int) - 1 = 0
    norm_num
  · rw [step_len_ok mps mps d hst (by omega) (le_refl mps)]
  · rw [step_len_ok mps mps d hst (by omega) (le_refl mps)]
  · rw [step_header2 mps (mps + 1) d hst, if_pos (by omega)]
  · rw [step_header2 mps (mps + 2) d hst, if_pos (by omega)]
  · intro pl d0 hlen h0
    exact (packet_run mps mps pl d0 h0 hmps (le_refl mps) hlen).1

/-- C3 witness: boundary behavior at `maxPayloadSize = 32` from a concrete
HEADER2 configuration, and a full 31-byte-payload packet with raw length
byte 32 decoding to PayloadReady. -/
theorem C3_length_boundaries_witness :
    (step 32 { initReader 32 with state := RState.HEADER2 } 1).state = RState.PAYLOAD ∧
    (step 32 { initReader 32 with state := RState.HEADER2 } 1).currPlSz = 0 ∧
    (step 32 { initReader 32 with state := RState.HEADER2 } 32).state = RState.PAYLOAD ∧
    (step 32 { initReader 32 with state := RState.HEADER2 } 32).currPlSz = (32 : Int) - 1 ∧
    (step 32 { initReader 32 with state := RState.HEADER2 } 33).state =
      RState.WAITFORPACKET ∧
    (step 32 { initReader 32 with state := RState.HEADER2 } 34).state =
      RState.WAITFORPACKET ∧
    (feedAll 32 (initReader 32) (packetBytes 32 (List.replicate 31 0))).state =
      RState.WAITFORHANDLING := by
  have h := C3_length_boundaries 32 { initReader 32 with state := RState.HEADER2 }
    rfl (by omega)
  exact ⟨h.1, h.2.1, h.2.2.1, h.2.2.2.1, h.2.2.2.2.1, h.2.2.2.2.2.1,
    h.2.2.2.2.2.2 (List.replicate 31 0) (initReader 32) (by simp) rfl⟩

/-- C4: every framing error — a non-sync byte in HEADER1, a length byte that
is 0 or above `maxPayloadSize` in HEADER2, or a mismatched checksum byte in
CHKSUM — sends the decoder straight back to `WAITFORPACKET` (never to an
intermediate state), and the call returns the same -1 sentinel as "no packet
yet", so no framing error is distinguishable by the caller. -/
theorem C4_framing_errors_resync (mps : Nat) (d : SerialReader) (b : Nat)
    (rest : List Nat)
    (herr : (d.state = RState.HEADER1 ∧ b ≠ INCOMING_HEADER_BYTE) ∨
            (d.state = RState.HEADER2 ∧ (b = 0 ∨ mps < b)) ∨
            (d.state = RState.CHKSUM ∧ d.chksum ≠ b)) :
    (readUpdate mps d (b :: rest)).1.state = RState.WAITFORPACKET ∧
    (readUpdate mps d (b :: rest)).2.1 = rest ∧
    (readUpdate mps d (b :: rest)).2.2 = some (-1) := by
  have hstep : step mps d b = { d with currByte := b, state := RState.WAITFORPACKET } := by
    rcases herr with ⟨h1, h2⟩ | ⟨h1, h2⟩ | ⟨h1, h2⟩
    · rw [step_header1 mps b d h1, if_neg h2]
    · rw [step_header2 mps b d h1, if_pos h2]
    · rw [step_chksum mps b d h1, if_neg h2]
  simp [readUpdate, hstep]

/-- C4 witness: a non-sync byte 0x00 while expecting the second sync byte. -/
theorem C4_framing_errors_witness :
    (readUpdate 32 { initReader 32 with state := RState.HEADER1 } [0x00, 0x55]).1.state =
      RState.WAITFORPACKET ∧
    (readUpdate 32 { initReader 32 with state := RState.HEADER1 } [0x00, 0x55]).2.1 =
      [0x55] ∧
    (readUpdate 32 { initReader 32 with state := RState.HEADER1 } [0x00, 0x55]).2.2 =
      some (-1) :=
  C4_framing_errors_resync 32 { initReader 32 with state := RState.HEADER1 } 0 [0x55]
    (Or.inl ⟨rfl, by decide⟩)

/-- C5 (code bug evidence): when no byte is available the `while` body of
`readUpdate` never runs and control falls off the end of the non-void
function without executing any `return` statement, so no defined value is
returned (modelled as `none`) — not the sentinel -1 the claim requires.  The
decoder state and the byte source are left untouched. -/
theorem C5_no_byte_no_return (mps : Nat) (d : SerialReader) :
    readUpdate mps d [] = (d, [], none) := rfl

/-- C6 counterexample: with the decoder parked in `WAITFORHANDLING`
(PayloadReady) after a valid packet, a poll with the byte 0x55 pending does
consume that byte — the remaining stream is `[]`, not `[0x55]` — because
`readUpdate` calls `bt1.read()` before switching on the state, contrary to
the claim that no further byte is consumed before acknowledgment. -/
theorem C6_poll_consumes_byte_while_ready :
    (feedAll 32 (initReader 32) [0xAA, 0xAA, 0x02, 0x07, 0x5D]).state =
      RState.WAITFORHANDLING ∧
    (readUpdate 32 (feedAll 32 (initReader 32) [0xAA, 0xAA, 0x02, 0x07, 0x5D])
      [0x55]).2.1 = [] ∧
    ¬ (readUpdate 32 (feedAll 32 (initReader 32) [0xAA, 0xAA, 0x02, 0x07, 0x5D])
      [0x55]).2.1 = [0x55] := by
  decide

/-- C6 (amended): while the decoder is in `WAITFORHANDLING` (PayloadReady),
each poll with a byte available reads and discards that one byte, but the
decoder's state, ready payload, expected payload length, fill counter and
checksum are all left unchanged, and the call keeps returning the ready
payload's length until `payloadHandled` is invoked. -/
theorem C6_ready_payload_held (mps : Nat) (d : SerialReader) (b : Nat)
    (rest : List Nat) (hst : d.state = RState.WAITFORHANDLING) :
    (readUpdate mps d (b :: rest)).1.state = RState.WAITFORHANDLING ∧
    (readUpdate mps d (b :: rest)).1.currPlSz = d.currPlSz ∧
    (readUpdate mps d (b :: rest)).1.payload = d.payload ∧
    (readUpdate mps d (b :: rest)).1.plCntr = d.plCntr ∧
    (readUpdate mps d (b :: rest)).1.chksum = d.chksum ∧
    (readUpdate mps d (b :: rest)).2.1 = rest ∧
    (readUpdate mps d (b :: rest)).2.2 = some d.currPlSz := by
  have hstep : step mps d b = { d with currByte := b } := step_waitforhandling mps b d hst
  simp [readUpdate, hstep, hst]

/-- C6 witness: the amended behavior at a concrete ready decoder. -/
theorem C6_ready_payload_held_witness :
    (readUpdate 32 (feedAll 32 (initReader 32) [0xAA, 0xAA, 0x02, 0x07, 0x5D])
      [0x55, 0x66]).1.state = RState.WAITFORHANDLING ∧
    (readUpdate 32 (feedAll 32 (initReader 32) [0xAA, 0xAA, 0x02, 0x07, 0x5D])
      [0x55, 0x66]).1.currPlSz =
      (feedAll 32 (initReader 32) [0xAA, 0xAA, 0x02, 0x07, 0x5D]).currPlSz ∧
    (readUpdate 32 (feedAll 32 (initReader 32) [0xAA, 0xAA, 0x02, 0x07, 0x5D])
      [0x55, 0x66]).1.payload =
      (feedAll 32 (initReader 32) [0xAA, 0xAA, 0x02, 0x07, 0x5D]).payload ∧
    (readUpdate 32 (feedAll 32 (initReader 32) [0xAA, 0xAA, 0x02, 0x07, 0x5D])
      [0x55, 0x66]).1.plCntr =
      (feedAll 32 (initReader 32) [0xAA, 0xAA, 0x02, 0x07, 0x5D]).plCntr ∧
    (readUpdate 32 (feedAll 32 (initReader 32) [0xAA, 0xAA, 0x02, 0x07, 0x5D])
      [0x55, 0x66]).1.chksum =
      (feedAll 32 (initReader 32) [0xAA, 0xAA, 0x02, 0x07, 0x5D]).chksum ∧
    (readUpdate 32 (feedAll 32 (initReader 32) [0xAA, 0xAA, 0x02, 0x07, 0x5D])
      [0x55, 0x66]).2.1 = [0x66] ∧
    (readUpdate 32 (feedAll 32 (initReader 32) [0xAA, 0xAA, 0x02, 0x07, 0x5D])
      [0x55, 0x66]).2.2 =
      some (feedAll 32 (initReader 32) [0xAA, 0xAA, 0x02, 0x07, 0x5D]).currPlSz :=
  C6_ready_payload_held 32 (feedAll 32 (initReader 32) [0xAA, 0xAA, 0x02, 0x07, 0x5D])
    0x55 [0x66] (by decide)

/-- C7: the running checksum is a modulo-256 accumulator.  When the length
byte `b` is accepted, `_chksum` is seeded to `(SYNC + SYNC + b) mod 256`;
each payload byte is added modulo 256; and in the CHKSUM state the packet is
accepted (state becomes `WAITFORHANDLING`) exactly when the received byte
equals the accumulated modulo-256 sum. -/
theorem C7_checksum_mod256 (mps : Nat) (d : SerialReader) (b : Nat) :
    (d.state = RState.HEADER2 → b ≠ 0 → b ≤ mps →
      (step mps d b).chksum =
        (INCOMING_HEADER_BYTE + INCOMING_HEADER_BYTE + b) % 256) ∧
    (d.state = RState.PAYLOAD →
      (step mps d b).chksum = (d.chksum + b) % 256) ∧
    (d.state = RState.CHKSUM →
      ((step mps d b).state = RState.WAITFORHANDLING ↔ d.chksum = b)) := by
  refine ⟨?_, ?_, ?_⟩
  · intro h h1 h2
    rw [step_len_ok mps b d h h1 h2]
  · intro h
    rw [step_payload mps b d h]
    by_cases hc : ((d.plCntr + 1 : Nat) : Int) = d.currPlSz
    · rw [if_pos hc]
    · rw [if_neg hc]
  · intro h
    rw [step_chksum mps b d h]
    by_cases hc : d.chksum = b
    · rw [if_pos hc]
      simp [hc]
    · rw [if_neg hc]
      simp [hc]

/-- C7 witness: the three checksum facts at concrete configurations — seeding
on length byte 3, accumulating byte 9 onto checksum 250 (wrapping modulo
256), and acceptance exactly on a matching checksum byte. -/
theorem C7_checksum_witness :
    (step 32 { initReader 32 with state := RState.HEADER2 } 3).chksum =
      (0xAA + 0xAA + 3) % 256 ∧
    (step 32 { initReader 32 with
                 state := RState.PAYLOAD, currPlSz := 5, chksum := 250 } 9).chksum =
      (250 + 9) % 256 ∧
    ((step 32 { initReader 32 with state := RState.CHKSUM, chksum := 93 } 93).state =
      RState.WAITFORHANDLING ↔ (93 : Nat) = 93) :=
  ⟨(C7_checksum_mod256 32 { initReader 32 with state := RState.HEADER2 } 3).1
      rfl (by decide) (by decide),
   (C7_checksum_mod256 32 { initReader 32 with
      state := RState.PAYLOAD, currPlSz := 5, chksum := 250 } 9).2.1 rfl,
   (C7_checksum_mod256 32 { initReader 32 with state := RState.CHKSUM, chksum := 93 }
      93).2.2 rfl⟩

/-- C8: `payloadHandled` resets the expected payload length to the sentinel
-1 and the state to `WAITFORPACKET`, from any state, and touches nothing
else (the buffer, counters and checksum are unchanged), so calling it
outside PayloadReady is harmless. -/
theorem C8_payloadHandled_resets (d : SerialReader) :
    (payloadHandled d).state = RState.WAITFORPACKET ∧
    (payloadHandled d).currPlSz = -1 ∧
    (payloadHandled d).currByte = d.currByte ∧
    (payloadHandled d).plCntr = d.plCntr ∧
    (payloadHandled d).chksum = d.chksum ∧
    (payloadHandled d).payload = d.payload :=
  ⟨rfl, rfl, rfl, rfl, rfl, rfl⟩

/-- C9: decoding a valid packet to PayloadReady, acknowledging with
`payloadHandled`, and then decoding the same packet bytes again reaches
PayloadReady a second time with the same expected payload length and the
same payload buffer contents as the first time. -/
theorem C9_ack_then_resend (mps B : Nat) (pl : List Nat) (d : SerialReader)
    (hst : d.state = RState.WAITFORPACKET)
    (hbuf : d.payload.length = mps)
    (hB1 : 2 ≤ B) (hB2 : B ≤ mps) (hlen : pl.length = B - 1) :
    (feedAll mps d (packetBytes B pl)).state = RState.WAITFORHANDLING ∧
    (feedAll mps (payloadHandled (feedAll mps d (packetBytes B pl)))
      (packetBytes B pl)).state = RState.WAITFORHANDLING ∧
    (feedAll mps (payloadHandled (feedAll mps d (packetBytes B pl)))
      (packetBytes B pl)).currPlSz = (feedAll mps d (packetBytes B pl)).currPlSz ∧
    (feedAll mps (payloadHandled (feedAll mps d (packetBytes B pl)))
      (packetBytes B pl)).payload = (feedAll mps d (packetBytes B pl)).payload := by
  have h1 := packet_run mps B pl d hst hB1 hB2 hlen
  have h2 := packet_run mps B pl (payloadHandled (feedAll mps d (packetBytes B pl)))
    rfl hB1 hB2 hlen
  refine ⟨h1.1, h2.1, ?_, ?_⟩
  · rw [h2.2.1, h1.2.1]
  · rw [h2.2.2.2]
    show setList (feedAll mps d (packetBytes B pl)).payload 0 pl =
      (feedAll mps d (packetBytes B pl)).payload
    rw [h1.2.2.2]
    exact setList_idem pl d.payload 0 (by rw [hbuf]; omega)

/-- C9 witness: packet with length byte 3 and payload `[1, 2]`, decoded,
acknowledged, and decoded again. -/
theorem C9_ack_then_resend_witness :
    (feedAll 32 (initReader 32) (packetBytes 3 [1, 2])).state =
      RState.WAITFORHANDLING ∧
    (feedAll 32 (payloadHandled (feedAll 32 (initReader 32) (packetBytes 3 [1, 2])))
      (packetBytes 3 [1, 2])).state = RState.WAITFORHANDLING ∧
    (feedAll 32 (payloadHandled (feedAll 32 (initReader 32) (packetBytes 3 [1, 2])))
      (packetBytes 3 [1, 2])).currPlSz =
      (feedAll 32 (initReader 32) (packetBytes 3 [1, 2])).currPlSz ∧
    (feedAll 32 (payloadHandled (feedAll 32 (initReader 32) (packetBytes 3 [1, 2])))
      (packetBytes 3 [1, 2])).payload =
      (feedAll 32 (initReader 32) (packetBytes 3 [1, 2])).payload :=
  C9_ack_then_resend 32 3 [1, 2] (initReader 32) rfl (by simp [initReader])
    (by omega) (by omega) rfl

/-- C10: for a packet whose accepted raw length byte `B` satisfies
`2 ≤ B ≤ maxPayloadSize`, every write into the payload buffer during
accumulation happens at index `_plCntr` with the fill counter strictly below
the stored expected size `B - 1`, hence strictly below `maxPayloadSize`:
whenever a prefix of the packet leaves the decoder in the PAYLOAD state (the
state in which the next byte is written at index `_plCntr`), the fill
counter is below the expected payload length and below `maxPayloadSize`. -/
theorem C10_payload_writes_in_bounds (mps B : Nat) (pl : List Nat) (d : SerialReader)
    (hst : d.state = RState.WAITFORPACKET)
    (hB1 : 2 ≤ B) (hB2 : B ≤ mps) (hlen : pl.length = B - 1) :
    ∀ i, (feedAll mps d ((packetBytes B pl).take i)).state = RState.PAYLOAD →
      ((feedAll mps d ((packetBytes B pl).take i)).plCntr : Int) <
        (feedAll mps d ((packetBytes B pl).take i)).currPlSz ∧
      (feedAll mps d ((packetBytes B pl).take i)).plCntr < mps := by
  have hne : pl ≠ [] := by
    intro hnil
    rw [hnil] at hlen
    simp at hlen
    omega
  have hpkt : packetBytes B pl =
      INCOMING_HEADER_BYTE :: INCOMING_HEADER_BYTE :: B ::
        (pl ++ [(INCOMING_HEADER_BYTE + INCOMING_HEADER_BYTE + B + pl.sum) % 256]) := by
    simp [packetBytes]
  have hsteps : ∀ l : List Nat,
      feedAll mps d (INCOMING_HEADER_BYTE :: INCOMING_HEADER_BYTE :: B :: l) =
        feedAll mps (afterLen B d) l := by
    intro l
    rw [feedAll_cons, feedAll_cons, feedAll_cons, step_sync1 mps d hst,
        step_sync2 mps _ rfl, step_len_ok mps B _ rfl (by omega) hB2]
    rfl
  have hsz : (afterLen B d).currPlSz =
      (((afterLen B d).plCntr + pl.length : Nat) : Int) := by
    show (B : Int) - 1 = ((0 + pl.length : Nat) : Int)
    rw [hlen]
    omega
  intro i hp
  rw [hpkt] at hp ⊢
  rcases i with _ | i
  · rw [List.take_zero, feedAll_nil, hst] at hp
    simp at hp
  rcases i with _ | i
  · rw [List.take_succ_cons, List.take_zero, feedAll_cons, feedAll_nil,
        step_sync1 mps d hst] at hp
    simp at hp
  rcases i with _ | n
  · rw [List.take_succ_cons, List.take_succ_cons, List.take_zero, feedAll_cons,
        feedAll_cons, feedAll_nil, step_sync1 mps d hst, step_sync2 mps _ rfl] at hp
    simp at hp
  rw [List.take_succ_cons, List.take_succ_cons, List.take_succ_cons, hsteps] at hp ⊢
  rcases Nat.lt_or_ge n pl.length with hn | hn
  · have htake : (pl ++
        [(INCOMING_HEADER_BYTE + INCOMING_HEADER_BYTE + B + pl.sum) % 256]).take n =
        pl.take n := by
      rw [List.take_append_eq_append_take, Nat.sub_eq_zero_of_le (le_of_lt hn)]
      simp
    rw [htake] at hp ⊢
    have hm := payload_mid_run mps pl n (afterLen B d) rfl hsz hn
    constructor
    · rw [hm.2.1, hm.2.2]
      show ((0 + n : Nat) : Int) < (B : Int) - 1
      omega
    · rw [hm.2.1]
      show 0 + n < mps
      omega
  · rcases Nat.eq_or_lt_of_le hn with he | hgt
    · have htake : (pl ++
          [(INCOMING_HEADER_BYTE + INCOMING_HEADER_BYTE + B + pl.sum) % 256]).take n =
          pl := by
        rw [← he, List.take_left]
      rw [htake] at hp
      have hr := payload_run mps pl (afterLen B d) rfl hsz hne
      rw [hr.1] at hp
      simp at hp
    · have htake : (pl ++
          [(INCOMING_HEADER_BYTE + INCOMING_HEADER_BYTE + B + pl.sum) % 256]).take n =
          pl ++ [(INCOMING_HEADER_BYTE + INCOMING_HEADER_BYTE + B + pl.sum) % 256] :=
        List.take_of_length_le (by simp; omega)
      rw [htake] at hp
      have hfull := packet_run mps B pl d hst hB1 hB2 hlen
      have hfd : feedAll mps (afterLen B d)
          (pl ++ [(INCOMING_HEADER_BYTE + INCOMING_HEADER_BYTE + B + pl.sum) % 256]) =
          feedAll mps d (packetBytes B pl) := by
        rw [hpkt]
        exact (hsteps _).symm
      rw [hfd, hfull.1] at hp
      simp at hp

/-- C10 witness: after the prefix `[0xAA, 0xAA, 0x03, 0x10]` of the packet
`packetBytes 3 [0x10, 0x20]` the decoder is mid-payload with fill counter 1,
below the expected size 2 and below `maxPayloadSize = 32`. -/
theorem C10_payload_writes_witness :
    ((feedAll 32 (initReader 32) ((packetBytes 3 [0x10, 0x20]).take 4)).plCntr : Int) <
      (feedAll 32 (initReader 32) ((packetBytes 3 [0x10, 0x20]).take 4)).currPlSz ∧
    (feedAll 32 (initReader 32) ((packetBytes 3 [0x10, 0x20]).take 4)).plCntr < 32 :=
  C10_payload_writes_in_bounds 32 3 [0x10, 0x20] (initReader 32) rfl (by omega)
    (by omega) rfl 4 (by decide)
